import Mathlib

/-!
Verification of the `ToolInvocations` rendering component
(`src/components/ui/tool.tsx`).

The component is a pure function from a list of tool-invocation records
(plus an optional image-click callback) to a visual tree.  We embed the
data model and the rendering logic shallowly: the produced React tree is
modelled by the `Block` structure recording exactly the observable,
data-dependent parts of the output (styling flags, indicators, parameter
rows, the image slot), and the click handler of the rendered image is
modelled by the argument it captures for the callback.
-/

namespace ToolTsx

/-- Model of JavaScript values that can appear as argument values
(`args: Record<string, any>`), together with the generic `String(...)`
conversion the component applies to them. -/
inductive JsValue where
  | str (s : String)
  | int (n : Int)
  | bool (b : Bool)
  | null
  | undef
  | obj
  deriving DecidableEq, Repr

/-- JavaScript `String(v)` conversion, as used for `{String(paramValue)}`. -/
def jsString : JsValue → String
  | .str s => s
  | .int n => toString n
  | .bool true => "true"
  | .bool false => "false"
  | .null => "null"
  | .undef => "undefined"
  | .obj => "[object Object]"

/-- The `source` object of an `ImageResult`.  The TypeScript interface marks
`media_type` and `data` optional (`media_type?: string; data?: string`), so
both are modelled as `Option String`. -/
structure Source where
  media_type : Option String
  data : Option String
  deriving DecidableEq, Repr

/-- The `ImageResult` interface: a `type` discriminator and a `source`
payload.  The code guards on `imageResult?.source`, i.e. it tolerates a
missing `source` at runtime, so `source` is modelled as optional. -/
structure ImageResult where
  type : String
  source : Option Source
  deriving DecidableEq, Repr

/-- The `result` field of a `ToolInvocation`:
`string | Array<ImageResult> | ImageResult`. -/
inductive ResultVal where
  | str (s : String)
  | one (r : ImageResult)
  | many (l : List ImageResult)
  deriving DecidableEq, Repr

/-- JavaScript truthiness of a `result` value, as used by the guard
`state === "result" && toolInvocation.result && ...`: the empty string is
falsy, every other string is truthy, and objects and arrays are always
truthy. -/
def resultTruthy : ResultVal → Bool
  | .str s => s ≠ ""
  | .one _ => true
  | .many _ => true

/-- A `ToolInvocation` record.  `state` is kept as a string, exactly as the
code compares it (`state === "call"` etc.); the TypeScript type restricts it
to `"call" | "result" | "partial-call"`.  `args` is modelled as an optional
association list (the code defends with `args || {}`), and `result` is the
optional result payload. -/
structure ToolInvocation where
  toolCallId : String
  toolName : String
  args : Option (List (String × JsValue))
  state : String
  result : Option ResultVal
  deriving Repr

/-- Embedding of `capitalizeAndReplaceUnderscores`:
`str.replaceAll("_", " ")` with the single-character pattern `"_"`
substitutes each underscore character by a space, and
`.replace(/^./, m => m.toUpperCase())` uppercases the first character. -/
def capitalizeAndReplaceUnderscores (str : String) : String :=
  let replaced := String.mk (str.data.map fun c => if c = '_' then ' ' else c)
  match replaced.data with
  | [] => replaced
  | c :: cs => String.mk (c.toUpper :: cs)

/-- The rendered `<img>` element: its `src` attribute and the argument the
`onClick={() => onImageClick?.(imageSrc)}` handler captures for the
callback.  Both come from the same local `imageSrc`. -/
structure ImgElement where
  src : String
  onClickArg : String
  deriving DecidableEq, Repr

/-- Semantics of the image's click handler `() => onImageClick?.(imageSrc)`:
when a callback is installed it is invoked once with the captured argument;
otherwise nothing happens.  Observed as the list of callback invocations
(each recorded by its argument). -/
def imgOnClick (hasCallback : Bool) (img : ImgElement) : List String :=
  if hasCallback then [img.onClickArg] else []

/-- JavaScript template-literal interpolation of a possibly-`undefined`
string: a missing value renders as the literal text `"undefined"`. -/
def jsInterpOpt : Option String → String
  | some s => s
  | none => "undefined"

/-- The `imageSrc` template literal:
`` `data:${imageResult.source.media_type};base64,${imageResult.source.data}` ``. -/
def imageSrcOf (s : Source) : String :=
  "data:" ++ jsInterpOpt s.media_type ++ ";base64," ++ jsInterpOpt s.data

/-- The image-identification logic: `Array.isArray(result)` → first element
with `item.type === "image"`; else an object with `result?.type === "image"`
is used directly; a string result yields no image. -/
def findImageResult : ResultVal → Option ImageResult
  | .many l => l.find? (fun item => item.type == "image")
  | .one r => if r.type == "image" then some r else none
  | .str _ => none

/-- The content of the image slot once its container is rendered: if an
image result was identified and it has a `source`, build the data URI and
render a clickable `<img>`; otherwise render nothing (`null`). -/
def renderImageSlot (result : ResultVal) : Option ImgElement :=
  match findImageResult result with
  | some ir =>
    match ir.source with
    | some s =>
      let imageSrc := imageSrcOf s
      some { src := imageSrc, onClickArg := imageSrc }
    | none => none
  | none => none

/-- One rendered parameter row of the body: the `key` prop, the formatted
parameter name, and the `String(paramValue)` text. -/
structure ParamRow where
  key : String
  displayName : String
  valueText : String
  deriving DecidableEq, Repr

/-- The observable parts of one rendered invocation block:
`key` (the `toolCallId`), the `opacity-40` styling flag, the formatted tool
name, the spinner and checkmark indicators, the parameter rows, and the
image slot.  `imageSlot = none` means the
`state === "result" && toolInvocation.result` container was not rendered at
all; `imageSlot = some none` means the container rendered but holds no
image. -/
structure Block where
  key : String
  reducedOpacity : Bool
  displayName : String
  spinner : Bool
  checkmark : Bool
  paramRows : List ParamRow
  imageSlot : Option (Option ImgElement)
  deriving DecidableEq, Repr

/-- Rendering of one invocation inside the `.map` callback: compute the
display name and `Object.entries(args || {})`, skip `pause_execution`
entirely (`return null`), otherwise produce the block.  The spinner renders
exactly when `state === "call"`; the checkmark renders in the other branch
when `state === "result"`; the `opacity-40` class is applied exactly when
`state === "call"`. -/
def renderInvocation (inv : ToolInvocation) : Option Block :=
  let displayToolName := capitalizeAndReplaceUnderscores inv.toolName
  let entries := inv.args.getD []
  if inv.toolName == "pause_execution" then
    none
  else
    some
      { key := inv.toolCallId
        reducedOpacity := inv.state == "call"
        displayName := displayToolName
        spinner := inv.state == "call"
        checkmark := if inv.state == "call" then false else inv.state == "result"
        paramRows := entries.map fun p =>
          { key := p.1
            displayName := capitalizeAndReplaceUnderscores p.1
            valueText := jsString p.2 }
        imageSlot :=
          match inv.result with
          | some r =>
              if inv.state == "result" && resultTruthy r then
                some (renderImageSlot r)
              else
                none
          | none => none }

/-- Rendering of the whole invocation list into the container `div`. -/
def renderList (l : List ToolInvocation) : List Block :=
  l.filterMap renderInvocation

/-- The exported component `ToolInvocations`: if the `toolInvocations` prop
is absent it returns `null` (modelled as `none`); otherwise it renders the
container with one block per non-skipped invocation, in input order. -/
def ToolInvocations (toolInvocations : Option (List ToolInvocation)) :
    Option (List Block) :=
  match toolInvocations with
  | none => none
  | some l => some (renderList l)

/-- Substitution applied to each character by `replaceAll("_", " ")`. -/
def underscoreToSpace (c : Char) : Char :=
  if c = '_' then ' ' else c

theorem renderInvocation_some {inv : ToolInvocation} {b : Block}
    (hp : renderInvocation inv = some b) :
    inv.toolName ≠ "pause_execution" ∧
    b.key = inv.toolCallId ∧
    b.reducedOpacity = (inv.state == "call") ∧
    b.displayName = capitalizeAndReplaceUnderscores inv.toolName ∧
    b.spinner = (inv.state == "call") ∧
    b.checkmark = (if inv.state == "call" then false else inv.state == "result") ∧
    b.paramRows = (inv.args.getD []).map (fun p =>
      { key := p.1
        displayName := capitalizeAndReplaceUnderscores p.1
        valueText := jsString p.2 }) ∧
    (∀ r, inv.result = some r →
      b.imageSlot =
        if inv.state == "result" && resultTruthy r then
          some (renderImageSlot r)
        else none) ∧
    (inv.result = none → b.imageSlot = none) := by
  unfold renderInvocation at hp
  by_cases h : inv.toolName == "pause_execution"
  · simp [h] at hp
  · simp only [h, Bool.false_eq_true, if_false, Option.some.injEq] at hp
    subst hp
    refine ⟨by simpa using h, rfl, rfl, rfl, rfl, rfl, rfl, ?_, ?_⟩
    · intro r hr
      simp only [hr]
    · intro hr
      simp only [hr]

/-- C3: `capitalizeAndReplaceUnderscores` replaces every underscore with a
space and then uppercases only the first character of the result; it maps
"get_user_data" to "Get user data", "x" to "X" and "" to ""; and the same
function is applied both to the tool name and to every argument parameter
name for display. -/
theorem capitalizeAndReplaceUnderscores_spec :
    (∀ (s : String) (c : Char) (cs : List Char), s.data = c :: cs →
      (capitalizeAndReplaceUnderscores s).data =
        (underscoreToSpace c).toUpper :: cs.map underscoreToSpace) ∧
    capitalizeAndReplaceUnderscores "get_user_data" = "Get user data" ∧
    capitalizeAndReplaceUnderscores "x" = "X" ∧
    capitalizeAndReplaceUnderscores "" = "" ∧
    (∀ (inv : ToolInvocation) (b : Block), renderInvocation inv = some b →
      b.displayName = capitalizeAndReplaceUnderscores inv.toolName ∧
      ∀ row ∈ b.paramRows,
        row.displayName = capitalizeAndReplaceUnderscores row.key) := by
  refine ⟨?_, by decide, by decide, by decide, ?_⟩
  · intro s c cs h
    simp [capitalizeAndReplaceUnderscores, h, underscoreToSpace]
  · intro inv b hb
    obtain ⟨-, -, -, hname, -, -, hrows, -⟩ := renderInvocation_some hb
    refine ⟨hname, ?_⟩
    intro row hrow
    rw [hrows] at hrow
    simp only [List.mem_map] at hrow
    obtain ⟨p, -, rfl⟩ := hrow
    rfl

/-- Witness for C3 at a concrete input: "get_user_data" decomposes as
'g' followed by "et_user_data", and the character-level description of the
output holds there. -/
theorem capitalizeAndReplaceUnderscores_spec_witness :
    ("get_user_data" : String).data = 'g' :: ("et_user_data" : String).data ∧
    (capitalizeAndReplaceUnderscores "get_user_data").data =
      (underscoreToSpace 'g').toUpper ::
        ("et_user_data" : String).data.map underscoreToSpace := by
  refine ⟨by decide, ?_⟩
  exact capitalizeAndReplaceUnderscores_spec.1 "get_user_data" 'g'
    ("et_user_data" : String).data (by decide)

/-- C4: an invocation named "pause_execution" produces no visual block
whatever its state, args or result; every other invocation produces exactly
one block; and blocks appear in input order (rendering a concatenation is
the concatenation of the renderings, and a leading pause_execution entry
contributes nothing). -/
theorem pause_execution_skipped :
    (∀ inv : ToolInvocation, inv.toolName = "pause_execution" →
      renderInvocation inv = none) ∧
    (∀ inv : ToolInvocation, inv.toolName ≠ "pause_execution" →
      ∃ b, renderInvocation inv = some b) ∧
    (∀ l₁ l₂ : List ToolInvocation,
      renderList (l₁ ++ l₂) = renderList l₁ ++ renderList l₂) ∧
    (∀ (inv : ToolInvocation) (l : List ToolInvocation),
      inv.toolName = "pause_execution" →
      renderList (inv :: l) = renderList l) := by
  refine ⟨?_, ?_, ?_, ?_⟩
  · intro inv h
    simp [renderInvocation, h]
  · intro inv h
    unfold renderInvocation
    rw [if_neg (by simpa using h)]
    exact ⟨_, rfl⟩
  · intro l₁ l₂
    simp [renderList]
  · intro inv l h
    simp [renderList, List.filterMap_cons, renderInvocation, h]

/-- Witness for C4 at a concrete input: a "pause_execution" invocation in
state "call" renders no block. -/
theorem pause_execution_skipped_witness :
    (ToolInvocation.mk "id0" "pause_execution" (some []) "call" none).toolName
      = "pause_execution" ∧
    renderInvocation
      (ToolInvocation.mk "id0" "pause_execution" (some []) "call" none)
      = none := by
  refine ⟨rfl, ?_⟩
  exact pause_execution_skipped.1
    (ToolInvocation.mk "id0" "pause_execution" (some []) "call" none) rfl

/-- C5: a rendered block for state "call" carries the reduced-opacity flag
and the spinner and never the checkmark; a block for state "result" carries
the checkmark and no reduced-opacity flag. -/
theorem call_result_indicators (inv : ToolInvocation) (b : Block)
    (hb : renderInvocation inv = some b) :
    (inv.state = "call" →
      b.reducedOpacity = true ∧ b.spinner = true ∧ b.checkmark = false) ∧
    (inv.state = "result" →
      b.checkmark = true ∧ b.reducedOpacity = false ∧ b.spinner = false) := by
  obtain ⟨-, -, hop, -, hsp, hck, -, -⟩ := renderInvocation_some hb
  constructor
  · intro h
    rw [h] at hop hsp hck
    simp_all
  · intro h
    rw [h] at hop hsp hck
    simp_all

/-- Witness for C5 at concrete inputs: a "call"-state invocation renders
with spinner and reduced opacity and no checkmark. -/
theorem call_result_indicators_witness :
    renderInvocation (ToolInvocation.mk "id1" "do_work" (some []) "call" none)
      = some (Block.mk "id1" true "Do work" true false [] none) ∧
    ((ToolInvocation.mk "id1" "do_work" (some []) "call" none).state = "call" →
      (Block.mk "id1" true "Do work" true false [] none).reducedOpacity = true ∧
      (Block.mk "id1" true "Do work" true false [] none).spinner = true ∧
      (Block.mk "id1" true "Do work" true false [] none).checkmark = false) := by
  refine ⟨by decide, ?_⟩
  exact (call_result_indicators
    (ToolInvocation.mk "id1" "do_work" (some []) "call" none)
    (Block.mk "id1" true "Do work" true false [] none) (by decide)).1

/-- C6: a rendered block for state "partial-call" carries neither the
spinner nor the checkmark, and the reduced-opacity styling is not
applied. -/
theorem partial_call_neutral (inv : ToolInvocation) (b : Block)
    (hb : renderInvocation inv = some b)
    (hs : inv.state = "partial-call") :
    b.spinner = false ∧ b.checkmark = false ∧ b.reducedOpacity = false := by
  obtain ⟨-, -, hop, -, hsp, hck, -, -⟩ := renderInvocation_some hb
  rw [hs] at hop hsp hck
  simp_all

/-- Witness for C6 at a concrete input: a "partial-call" invocation renders
with no indicator and full opacity. -/
theorem partial_call_neutral_witness :
    renderInvocation
      (ToolInvocation.mk "id2" "do_work" (some []) "partial-call" none)
      = some (Block.mk "id2" false "Do work" false false [] none) ∧
    (ToolInvocation.mk "id2" "do_work" (some []) "partial-call" none).state
      = "partial-call" ∧
    ((Block.mk "id2" false "Do work" false false [] none).spinner = false ∧
      (Block.mk "id2" false "Do work" false false [] none).checkmark = false ∧
      (Block.mk "id2" false "Do work" false false [] none).reducedOpacity
        = false) := by
  refine ⟨by decide, rfl, ?_⟩
  exact partial_call_neutral
    (ToolInvocation.mk "id2" "do_work" (some []) "partial-call" none)
    (Block.mk "id2" false "Do work" false false [] none) (by decide) rfl

/-- C7: the body renders one parameter row per (name, value) entry of
`args`, in iteration order, with the value converted by generic string
conversion; absent or empty `args` yields zero rows (and rendering is a
total function, so no exception arises). -/
theorem args_rows (inv : ToolInvocation) (b : Block)
    (hb : renderInvocation inv = some b) :
    b.paramRows = (inv.args.getD []).map (fun p =>
      { key := p.1
        displayName := capitalizeAndReplaceUnderscores p.1
        valueText := jsString p.2 }) ∧
    (inv.args = none → b.paramRows = []) ∧
    (inv.args = some [] → b.paramRows = []) := by
  obtain ⟨-, -, -, -, -, -, hrows, -⟩ := renderInvocation_some hb
  refine ⟨hrows, ?_, ?_⟩ <;> intro h <;> rw [hrows, h] <;> rfl

/-- Witness for C7 at a concrete input: an invocation with one argument
entry renders exactly one row with formatted name and stringified value. -/
theorem args_rows_witness :
    renderInvocation
      (ToolInvocation.mk "id3" "get_user" (some [("user_id", JsValue.int 42)])
        "result" none)
      = some (Block.mk "id3" false "Get user" false true
          [ParamRow.mk "user_id" "User id" "42"] none) ∧
    ((Block.mk "id3" false "Get user" false true
        [ParamRow.mk "user_id" "User id" "42"] none).paramRows
      = ((ToolInvocation.mk "id3" "get_user"
            (some [("user_id", JsValue.int 42)]) "result" none).args.getD
          []).map (fun p =>
            { key := p.1
              displayName := capitalizeAndReplaceUnderscores p.1
              valueText := jsString p.2 }) ∧
      ((ToolInvocation.mk "id3" "get_user" (some [("user_id", JsValue.int 42)])
          "result" none).args = none →
        (Block.mk "id3" false "Get user" false true
          [ParamRow.mk "user_id" "User id" "42"] none).paramRows = []) ∧
      ((ToolInvocation.mk "id3" "get_user" (some [("user_id", JsValue.int 42)])
          "result" none).args = some [] →
        (Block.mk "id3" false "Get user" false true
          [ParamRow.mk "user_id" "User id" "42"] none).paramRows = [])) := by
  refine ⟨by decide, ?_⟩
  exact args_rows
    (ToolInvocation.mk "id3" "get_user" (some [("user_id", JsValue.int 42)])
      "result" none)
    (Block.mk "id3" false "Get user" false true
      [ParamRow.mk "user_id" "User id" "42"] none) (by decide)

/-- C9: when the `toolInvocations` prop is absent the component returns
`null`, which differs from the empty container an empty list produces; no
callback is invoked and no exception is raised (rendering is total). -/
theorem missing_prop_renders_null :
    ToolInvocations none = none ∧
    ToolInvocations (some []) = some [] ∧
    ToolInvocations none ≠ ToolInvocations (some []) := by
  refine ⟨rfl, rfl, by decide⟩

theorem resultTruthy_of_findImageResult {r : ResultVal} {ir : ImageResult}
    (h : findImageResult r = some ir) : resultTruthy r = true := by
  cases r with
  | str s => simp [findImageResult] at h
  | one x => rfl
  | many l => rfl

theorem jsInterpOpt_eq_getD (o : Option String) :
    jsInterpOpt o = o.getD "undefined" := by
  cases o <;> rfl

/-- C1: when an image result with media type `m` and base64 data `d` is
extracted from a "result"-state invocation, the rendered image's `src` is
exactly "data:" ++ m ++ ";base64," ++ d, and clicking the image invokes the
callback with exactly that same string. -/
theorem image_data_uri_and_click (inv : ToolInvocation) (b : Block)
    (r : ResultVal) (ir : ImageResult) (m d : String)
    (hb : renderInvocation inv = some b)
    (hs : inv.state = "result")
    (hr : inv.result = some r)
    (hf : findImageResult r = some ir)
    (hsrc : ir.source = some (Source.mk (some m) (some d))) :
    ∃ img : ImgElement,
      b.imageSlot = some (some img) ∧
      img.src = "data:" ++ m ++ ";base64," ++ d ∧
      imgOnClick true img = ["data:" ++ m ++ ";base64," ++ d] := by
  obtain ⟨-, -, -, -, -, -, -, hslot, -⟩ := renderInvocation_some hb
  have hslot2 := hslot r hr
  rw [hs, resultTruthy_of_findImageResult hf] at hslot2
  simp only [Bool.and_true, beq_self_eq_true, if_true] at hslot2
  unfold renderImageSlot at hslot2
  simp only [hf, hsrc] at hslot2
  refine ⟨ImgElement.mk (imageSrcOf (Source.mk (some m) (some d)))
    (imageSrcOf (Source.mk (some m) (some d))), ?_, ?_, ?_⟩
  · simpa using hslot2
  · simp [imageSrcOf, jsInterpOpt]
  · simp [imgOnClick, imageSrcOf, jsInterpOpt]

/-- Witness for C1 at a concrete input: a result list holding a text entry
followed by a PNG image entry renders an image whose src and click argument
are both "data:image/png;base64,AAAA". -/
theorem image_data_uri_and_click_witness :
    renderInvocation
      (ToolInvocation.mk "id4" "take_screenshot" (some []) "result"
        (some (ResultVal.many
          [ImageResult.mk "text" none,
           ImageResult.mk "image"
             (some (Source.mk (some "image/png") (some "AAAA")))])))
      = some (Block.mk "id4" false "Take screenshot" false true []
          (some (some (ImgElement.mk "data:image/png;base64,AAAA"
            "data:image/png;base64,AAAA")))) ∧
    (ToolInvocation.mk "id4" "take_screenshot" (some []) "result"
        (some (ResultVal.many
          [ImageResult.mk "text" none,
           ImageResult.mk "image"
             (some (Source.mk (some "image/png") (some "AAAA")))]))).state
      = "result" ∧
    findImageResult
      (ResultVal.many
        [ImageResult.mk "text" none,
         ImageResult.mk "image"
           (some (Source.mk (some "image/png") (some "AAAA")))])
      = some (ImageResult.mk "image"
          (some (Source.mk (some "image/png") (some "AAAA")))) ∧
    (∃ img : ImgElement,
      (Block.mk "id4" false "Take screenshot" false true []
          (some (some (ImgElement.mk "data:image/png;base64,AAAA"
            "data:image/png;base64,AAAA")))).imageSlot = some (some img) ∧
      img.src = "data:" ++ "image/png" ++ ";base64," ++ "AAAA" ∧
      imgOnClick true img
        = ["data:" ++ "image/png" ++ ";base64," ++ "AAAA"]) := by
  refine ⟨by decide, rfl, by decide, ?_⟩
  exact image_data_uri_and_click
    (ToolInvocation.mk "id4" "take_screenshot" (some []) "result"
      (some (ResultVal.many
        [ImageResult.mk "text" none,
         ImageResult.mk "image"
           (some (Source.mk (some "image/png") (some "AAAA")))])))
    (Block.mk "id4" false "Take screenshot" false true []
      (some (some (ImgElement.mk "data:image/png;base64,AAAA"
        "data:image/png;base64,AAAA"))))
    (ResultVal.many
      [ImageResult.mk "text" none,
       ImageResult.mk "image"
         (some (Source.mk (some "image/png") (some "AAAA")))])
    (ImageResult.mk "image"
      (some (Source.mk (some "image/png") (some "AAAA"))))
    "image/png" "AAAA" (by decide) rfl rfl (by decide) rfl

/-- C2: an image is selected only in state "result" with a present result;
a sequence result selects its first element of type "image"; a single
object of type "image" is selected directly; a string result, a result
with no image element, or a missing result yields no image in the image
slot, while the checkmark and the argument rows still render. -/
theorem image_selection_rule (inv : ToolInvocation) (b : Block)
    (hb : renderInvocation inv = some b) :
    ((∃ i : ImgElement, b.imageSlot = some (some i)) →
      inv.state = "result" ∧ ∃ r, inv.result = some r) ∧
    (∀ l : List ImageResult, inv.state = "result" →
      inv.result = some (ResultVal.many l) →
      b.imageSlot = some (renderImageSlot (ResultVal.many l)) ∧
      findImageResult (ResultVal.many l)
        = l.find? (fun it => it.type == "image")) ∧
    (∀ ir : ImageResult, inv.state = "result" →
      inv.result = some (ResultVal.one ir) → ir.type = "image" →
      b.imageSlot = some (renderImageSlot (ResultVal.one ir)) ∧
      findImageResult (ResultVal.one ir) = some ir) ∧
    (∀ s : String, inv.result = some (ResultVal.str s) →
      ∀ i : ImgElement, b.imageSlot ≠ some (some i)) ∧
    (∀ r : ResultVal, inv.result = some r → findImageResult r = none →
      ∀ i : ImgElement, b.imageSlot ≠ some (some i)) ∧
    (inv.result = none → b.imageSlot = none) ∧
    (inv.state = "result" →
      b.checkmark = true ∧
      b.paramRows = (inv.args.getD []).map (fun p =>
        { key := p.1
          displayName := capitalizeAndReplaceUnderscores p.1
          valueText := jsString p.2 })) := by
  obtain ⟨-, -, -, -, -, hck, hrows, hslot, hnone⟩ := renderInvocation_some hb
  refine ⟨?_, ?_, ?_, ?_, ?_, hnone, ?_⟩
  · rintro ⟨i, hi⟩
    cases hres : inv.result with
    | none => rw [hnone hres] at hi; exact absurd hi (by simp)
    | some r =>
      have h2 := hslot r hres
      rw [h2] at hi
      by_cases hc : (inv.state == "result" && resultTruthy r) = true
      · simp only [Bool.and_eq_true, beq_iff_eq] at hc
        exact ⟨hc.1, r, rfl⟩
      · rw [if_neg hc] at hi
        exact absurd hi (by simp)
  · intro l hs hres
    have h2 := hslot _ hres
    rw [hs] at h2
    exact ⟨by simpa [resultTruthy] using h2, rfl⟩
  · intro ir hs hres hty
    have h2 := hslot _ hres
    rw [hs] at h2
    exact ⟨by simpa [resultTruthy] using h2, by simp [findImageResult, hty]⟩
  · intro s hres i hi
    have h2 := hslot _ hres
    rw [h2] at hi
    by_cases hc : (inv.state == "result" && resultTruthy (ResultVal.str s)) = true
    · rw [if_pos hc] at hi
      simp [renderImageSlot, findImageResult] at hi
    · rw [if_neg hc] at hi
      exact absurd hi (by simp)
  · intro r hres hfind i hi
    have h2 := hslot _ hres
    rw [h2] at hi
    by_cases hc : (inv.state == "result" && resultTruthy r) = true
    · rw [if_pos hc] at hi
      simp [renderImageSlot, hfind] at hi
    · rw [if_neg hc] at hi
      exact absurd hi (by simp)
  · intro hs
    rw [hs] at hck
    exact ⟨by simpa using hck, hrows⟩

/-- Concrete invocation used to witness C2: state "result" with a plain
string result and one argument entry. -/
def invC2 : ToolInvocation :=
  ToolInvocation.mk "id5" "browse_web" (some [("query", JsValue.str "cats")])
    "result" (some (ResultVal.str "ok"))

/-- The block rendered for `invC2`: checkmark, one parameter row, and an
image-slot container holding no image. -/
def blockC2 : Block :=
  Block.mk "id5" false "Browse web" false true
    [ParamRow.mk "query" "Query" "cats"] (some none)

/-- Witness for C2 at the concrete input `invC2`. -/
theorem image_selection_rule_witness :
    renderInvocation invC2 = some blockC2 ∧
    (((∃ i : ImgElement, blockC2.imageSlot = some (some i)) →
      invC2.state = "result" ∧ ∃ r, invC2.result = some r) ∧
    (∀ l : List ImageResult, invC2.state = "result" →
      invC2.result = some (ResultVal.many l) →
      blockC2.imageSlot = some (renderImageSlot (ResultVal.many l)) ∧
      findImageResult (ResultVal.many l)
        = l.find? (fun it => it.type == "image")) ∧
    (∀ ir : ImageResult, invC2.state = "result" →
      invC2.result = some (ResultVal.one ir) → ir.type = "image" →
      blockC2.imageSlot = some (renderImageSlot (ResultVal.one ir)) ∧
      findImageResult (ResultVal.one ir) = some ir) ∧
    (∀ s : String, invC2.result = some (ResultVal.str s) →
      ∀ i : ImgElement, blockC2.imageSlot ≠ some (some i)) ∧
    (∀ r : ResultVal, invC2.result = some r → findImageResult r = none →
      ∀ i : ImgElement, blockC2.imageSlot ≠ some (some i)) ∧
    (invC2.result = none → blockC2.imageSlot = none) ∧
    (invC2.state = "result" →
      blockC2.checkmark = true ∧
      blockC2.paramRows = (invC2.args.getD []).map (fun p =>
        { key := p.1
          displayName := capitalizeAndReplaceUnderscores p.1
          valueText := jsString p.2 }))) :=
  ⟨by decide, image_selection_rule invC2 blockC2 (by decide)⟩

/-- C10: when the selected image result has a `source` object, an image is
rendered whatever its optional fields; a missing `media_type` or `data`
interpolates as the literal text "undefined", so with both fields absent
the src is "data:undefined;base64,undefined". -/
theorem missing_source_fields_interpolate (inv : ToolInvocation) (b : Block)
    (r : ResultVal) (ir : ImageResult) (mo da : Option String)
    (hb : renderInvocation inv = some b)
    (hs : inv.state = "result")
    (hr : inv.result = some r)
    (hf : findImageResult r = some ir)
    (hsrc : ir.source = some (Source.mk mo da)) :
    ∃ img : ImgElement,
      b.imageSlot = some (some img) ∧
      img.src = "data:" ++ mo.getD "undefined" ++ ";base64,"
        ++ da.getD "undefined" ∧
      (mo = none → da = none →
        img.src = "data:undefined;base64,undefined") := by
  obtain ⟨-, -, -, -, -, -, -, hslot, -⟩ := renderInvocation_some hb
  have hslot2 := hslot r hr
  rw [hs, resultTruthy_of_findImageResult hf] at hslot2
  simp only [Bool.and_true, beq_self_eq_true, if_true] at hslot2
  unfold renderImageSlot at hslot2
  simp only [hf, hsrc] at hslot2
  refine ⟨ImgElement.mk (imageSrcOf (Source.mk mo da))
    (imageSrcOf (Source.mk mo da)), by simpa using hslot2, ?_, ?_⟩
  · simp [imageSrcOf, jsInterpOpt_eq_getD]
  · rintro rfl rfl
    rfl

/-- Concrete invocation used to witness C10: a single image result whose
`source` object is present but has neither `media_type` nor `data`. -/
def invC10 : ToolInvocation :=
  ToolInvocation.mk "id6" "take_screenshot" (some []) "result"
    (some (ResultVal.one (ImageResult.mk "image" (some (Source.mk none none)))))

/-- The block rendered for `invC10`: the image renders with both fields
interpolated as "undefined". -/
def blockC10 : Block :=
  Block.mk "id6" false "Take screenshot" false true []
    (some (some (ImgElement.mk "data:undefined;base64,undefined"
      "data:undefined;base64,undefined")))

/-- Witness for C10 at the concrete input `invC10`. -/
theorem missing_source_fields_interpolate_witness :
    renderInvocation invC10 = some blockC10 ∧
    invC10.state = "result" ∧
    findImageResult
        (ResultVal.one (ImageResult.mk "image" (some (Source.mk none none))))
      = some (ImageResult.mk "image" (some (Source.mk none none))) ∧
    (∃ img : ImgElement,
      blockC10.imageSlot = some (some img) ∧
      img.src = "data:" ++ (none : Option String).getD "undefined"
        ++ ";base64," ++ (none : Option String).getD "undefined" ∧
      ((none : Option String) = none → (none : Option String) = none →
        img.src = "data:undefined;base64,undefined")) :=
  ⟨by decide, rfl, by decide,
    missing_source_fields_interpolate invC10 blockC10
      (ResultVal.one (ImageResult.mk "image" (some (Source.mk none none))))
      (ImageResult.mk "image" (some (Source.mk none none))) none none
      (by decide) rfl rfl (by decide) rfl⟩

/-- C8: the renderer is deterministic and stateless: equal inputs render to
identical output trees, and each invocation's contribution to the output is
independent of the rest of the list (no hidden state across elements). -/
theorem render_pure :
    (∀ x : Option (List ToolInvocation), ToolInvocations x = ToolInvocations x) ∧
    (∀ (pre post : List ToolInvocation) (inv : ToolInvocation),
      renderList (pre ++ inv :: post)
        = renderList pre ++ (renderInvocation inv).toList ++ renderList post) := by
  refine ⟨fun x => rfl, ?_⟩
  intro pre post inv
  simp only [renderList, List.filterMap_append, List.append_assoc,
    List.append_cancel_left_eq]
  cases h : renderInvocation inv <;>
    simp [List.filterMap_cons, h]

end ToolTsx
